import Mathlib

/-!
Verification of the rate-limiting engine in `src/bot/rate_limiter.py`
(Sentinel-Shop).  The Python code is shallowly embedded: floats become
rationals, `time.time()` becomes an explicit `now : ℚ` argument, and each
mutating method becomes a function returning the updated state together
with its Python return value.
-/

set_option autoImplicit false
set_option maxHeartbeats 1000000

namespace SentinelShop

/-- Token bucket (`RateLimitBucket` dataclass, rate_limiter.py lines 25-57). -/
structure RateLimitBucket where
  tokens : ℚ
  capacity : ℚ
  refill_rate : ℚ
  last_refill : ℚ
  deriving DecidableEq

/-- `refill(now)`: `tokens = min(capacity, tokens + (now - last_refill) * refill_rate);
last_refill = now` (lines 34-39).  The Python method returns `self.tokens`; here the
whole updated bucket is returned and `tokens` is read off it. -/
def RateLimitBucket.refill (b : RateLimitBucket) (now : ℚ) : RateLimitBucket :=
  { b with
      tokens := min b.capacity (b.tokens + (now - b.last_refill) * b.refill_rate)
      last_refill := now }

/-- `consume(tokens=n)` (lines 41-48): refill at `time.time()`, then if
`available >= n` subtract `n` and return `True`, else return `False`. -/
def RateLimitBucket.consume (b : RateLimitBucket) (now : ℚ) (n : ℚ) :
    Bool × RateLimitBucket :=
  let b1 := b.refill now
  if n ≤ b1.tokens then (true, { b1 with tokens := b1.tokens - n }) else (false, b1)

/-- `wait_time(tokens=n)` (lines 50-57): refill at `time.time()`, return `0` if
`available >= n`, else `(n - available) / refill_rate`.  The refill mutates the
bucket, so the updated bucket is returned alongside the wait. -/
def RateLimitBucket.wait_time (b : RateLimitBucket) (now : ℚ) (n : ℚ) :
    ℚ × RateLimitBucket :=
  let b1 := b.refill now
  if n ≤ b1.tokens then (0, b1) else ((n - b1.tokens) / b1.refill_rate, b1)

/-- Resolution state of an `asyncio.Future` handed back by `enqueue_send`.
`overflowError` models `future.set_exception(ValueError(...))` on queue
overflow (line 262); `pending` models a future not yet resolved. -/
inductive FutureState where
  | pending
  | overflowError
  deriving DecidableEq

/-- A per-channel `collections.deque(maxlen=...)` of queued item ids.  Each
queued item is identified by the id of its future (the `QueuedItem.future`
slot); the coroutine and arguments are opaque to the limiter. -/
structure ChannelQueue where
  items : List Nat
  maxlen : Nat
  deriving DecidableEq

/-- CPython `deque.append` with a `maxlen`: when the deque is full the
leftmost (oldest) element is silently discarded. -/
def ChannelQueue.push (q : ChannelQueue) (x : Nat) : ChannelQueue :=
  if q.items.length < q.maxlen then { q with items := q.items ++ [x] }
  else { q with items := (q.items ++ [x]).drop (q.items.length + 1 - q.maxlen) }

/-- Lookup in an association list keyed by `Nat` (a Python dict access). -/
def getEntry {α : Type} : List (Nat × α) → Nat → Option α
  | [], _ => none
  | (k2, v) :: rest, k => if k2 = k then some v else getEntry rest k

/-- Insert-or-replace in an association list (a Python dict assignment). -/
def setEntry {α : Type} : List (Nat × α) → Nat → α → List (Nat × α)
  | [], k, v => [(k, v)]
  | (k2, v2) :: rest, k, v =>
      if k2 = k then (k, v) :: rest else (k2, v2) :: setEntry rest k v

/-- `RateLimiter` state (rate_limiter.py lines 75-119).  Locks are not
modelled (the embedding is sequential); `_processing_tasks` keeps only the
channel ids with an active drain task; `futures` records the resolution
state of every future created by `enqueue_send`. -/
structure RateLimiter where
  channel_queues : List (Nat × ChannelQueue)
  channel_buckets : List (Nat × RateLimitBucket)
  processing_tasks : List Nat
  global_bucket : RateLimitBucket
  audit_log_bucket : RateLimitBucket
  channel_rate_limit : ℚ
  channel_window : ℚ
  send_spacing : ℚ
  max_queue_size : Nat
  enabled : Bool
  rate_limit_hits : Nat
  messages_queued : Nat
  messages_sent : Nat
  queue_overflows : Nat
  futures : List (Nat × FutureState)
  deriving DecidableEq

/-- `RateLimiter.__init__` (lines 81-119), with `time.time()` passed as `now`. -/
def RateLimiter.init (now : ℚ) : RateLimiter :=
  { channel_queues := []
    channel_buckets := []
    processing_tasks := []
    global_bucket :=
      { tokens := 50, capacity := 50, refill_rate := 50, last_refill := now }
    audit_log_bucket :=
      { tokens := 2, capacity := 2, refill_rate := 2, last_refill := now }
    channel_rate_limit := 5
    channel_window := 5
    send_spacing := 1/10
    max_queue_size := 100
    enabled := true
    rate_limit_hits := 0
    messages_queued := 0
    messages_sent := 0
    queue_overflows := 0
    futures := [] }

/-- `configure` (lines 121-139): each field independently optional. -/
def RateLimiter.configure (rl : RateLimiter)
    (channel_rate_limit channel_window send_spacing : Option ℚ)
    (max_queue_size : Option Nat) (enabled : Option Bool) : RateLimiter :=
  let rl1 := match channel_rate_limit with
    | some v => { rl with channel_rate_limit := v }
    | none => rl
  let rl2 := match channel_window with
    | some v => { rl1 with channel_window := v }
    | none => rl1
  let rl3 := match send_spacing with
    | some v => { rl2 with send_spacing := v }
    | none => rl2
  let rl4 := match max_queue_size with
    | some v => { rl3 with max_queue_size := v }
    | none => rl3
  match enabled with
    | some v => { rl4 with enabled := v }
    | none => rl4

/-- `_get_channel_bucket` (lines 152-161): get-or-create; a fresh bucket
gets `tokens = capacity = channel_rate_limit` and
`refill_rate = channel_rate_limit / channel_window`. -/
def RateLimiter.get_channel_bucket (rl : RateLimiter) (channel_id : Nat)
    (now : ℚ) : RateLimiter × RateLimitBucket :=
  match getEntry rl.channel_buckets channel_id with
  | some b => (rl, b)
  | none =>
      let b : RateLimitBucket :=
        { tokens := rl.channel_rate_limit
          capacity := rl.channel_rate_limit
          refill_rate := rl.channel_rate_limit / rl.channel_window
          last_refill := now }
      ({ rl with channel_buckets := setEntry rl.channel_buckets channel_id b }, b)

/-- `_get_channel_queue` (lines 169-173): get-or-create; the deque's `maxlen`
is frozen to the `_max_queue_size` in effect at creation time. -/
def RateLimiter.get_channel_queue (rl : RateLimiter) (channel_id : Nat) :
    RateLimiter × ChannelQueue :=
  match getEntry rl.channel_queues channel_id with
  | some q => (rl, q)
  | none =>
      let q : ChannelQueue := { items := [], maxlen := rl.max_queue_size }
      ({ rl with channel_queues := setEntry rl.channel_queues channel_id q }, q)

/-- Observation helper: the bucket currently stored for a channel
(`self._channel_buckets[channel_id]`). -/
def RateLimiter.channel_bucket (rl : RateLimiter) (channel_id : Nat) :
    RateLimitBucket :=
  (getEntry rl.channel_buckets channel_id).getD
    { tokens := 0, capacity := 0, refill_rate := 0, last_refill := 0 }

/-- Observation helper: the items of the queue currently stored for a channel. -/
def RateLimiter.channel_queue_items (rl : RateLimiter) (channel_id : Nat) :
    List Nat :=
  ((getEntry rl.channel_queues channel_id).getD { items := [], maxlen := 0 }).items

/-- What `enqueue_send` did with the call. `immediate`: rate limiting
disabled, the coroutine was started at once and its task returned.
`overflowed`: the returned future was already resolved with the overflow
exception. `queued`: the returned future is pending and the item sits in
the channel queue. -/
inductive EnqueueResult where
  | immediate
  | overflowed
  | queued
  deriving DecidableEq

/-- `enqueue_send(channel_id, coro, ...)` (lines 231-273).  `fid` is the id
of the freshly created future.  Under the channel lock: if
`len(queue) >= self._max_queue_size` (the live configuration value), bump
`queue_overflows`, resolve the future with the overflow exception, and
return without enqueueing; otherwise append to the deque, bump
`messages_queued`, and start a processing task if none is registered. -/
def RateLimiter.enqueue_send (rl : RateLimiter) (channel_id : Nat)
    (fid : Nat) : RateLimiter × EnqueueResult :=
  if rl.enabled = false then (rl, EnqueueResult.immediate)
  else
    let p := rl.get_channel_queue channel_id
    let rl1 := p.1
    let q := p.2
    if rl1.max_queue_size ≤ q.items.length then
      ({ rl1 with
          queue_overflows := rl1.queue_overflows + 1
          futures := setEntry rl1.futures fid FutureState.overflowError },
        EnqueueResult.overflowed)
    else
      let rl2 := { rl1 with
          channel_queues := setEntry rl1.channel_queues channel_id (q.push fid)
          messages_queued := rl1.messages_queued + 1
          futures := setEntry rl1.futures fid FutureState.pending }
      let rl3 :=
        if channel_id ∈ rl2.processing_tasks then rl2
        else { rl2 with processing_tasks := rl2.processing_tasks ++ [channel_id] }
      (rl3, EnqueueResult.queued)

/-- Sequentially `enqueue_send` each future id in the list for one channel,
collecting the per-call results. -/
def RateLimiter.enqueue_all (rl : RateLimiter) (channel_id : Nat) :
    List Nat → RateLimiter × List EnqueueResult
  | [] => (rl, [])
  | f :: rest =>
      let p := rl.enqueue_send channel_id f
      let p2 := p.1.enqueue_all channel_id rest
      (p2.1, p.2 :: p2.2)

/-- `handle_rate_limit_response(channel_id, retry_after)` (lines 302-329):
bump `rate_limit_hits`; for a channel, get-or-create its bucket and set
`tokens = 0`, `last_refill = time.time() + retry_after`; for `None`, do the
same to the global bucket.  The trailing `await asyncio.sleep(retry_after)`
blocks only the caller and does not change limiter state. -/
def RateLimiter.handle_rate_limit_response (rl : RateLimiter)
    (channel_id : Option Nat) (retry_after : ℚ) (now : ℚ) : RateLimiter :=
  let rl0 := { rl with rate_limit_hits := rl.rate_limit_hits + 1 }
  match channel_id with
  | some cid =>
      let p := rl0.get_channel_bucket cid now
      let b := p.2
      { p.1 with
          channel_buckets := setEntry p.1.channel_buckets cid
            { b with tokens := 0, last_refill := now + retry_after } }
  | none =>
      { rl0 with
          global_bucket :=
            { rl0.global_bucket with tokens := 0, last_refill := now + retry_after } }

/-- Events observable on the audit path. -/
inductive AuditEvent where
  | wait (w : ℚ)
  | consumeAttempt (ok : Bool)
  | invokeOp
  deriving DecidableEq

def AuditEvent.isConsume : AuditEvent → Bool
  | AuditEvent.consumeAttempt _ => true
  | _ => false

def AuditEvent.isInvoke : AuditEvent → Bool
  | AuditEvent.invokeOp => true
  | _ => false

/-- `execute_with_audit_log_limit` (lines 275-300).  When disabled the
coroutine runs at once.  Otherwise, under the audit lock: compute
`wait_time()`, sleep that long (modelled as advancing `now`), attempt
`consume()` once; on failure compute `wait_time()` and sleep again WITHOUT
re-attempting `consume`; finally invoke the coroutine and return its result
directly.  The event list is the observable trace; `invokeOp` marks the
single `await coro(...)`. -/
def RateLimiter.execute_with_audit_log_limit (rl : RateLimiter) (now : ℚ) :
    RateLimiter × List AuditEvent :=
  if rl.enabled = false then (rl, [AuditEvent.invokeOp])
  else
    let p1 := rl.audit_log_bucket.wait_time now 1
    let t1 := now + p1.1
    let p2 := p1.2.consume t1 1
    if p2.1 then
      ({ rl with audit_log_bucket := p2.2 },
        [AuditEvent.wait p1.1, AuditEvent.consumeAttempt true, AuditEvent.invokeOp])
    else
      let p3 := p2.2.wait_time t1 1
      ({ rl with audit_log_bucket := p3.2 },
        [AuditEvent.wait p1.1, AuditEvent.consumeAttempt false,
          AuditEvent.wait p3.1, AuditEvent.invokeOp])

/-- The sequence of item ids invoked by `_process_channel_queue`
(lines 175-229) for one channel, as a function of the queue contents and of
the outcome of each iteration's channel-bucket `consume` (line 207).  The
Boolean oracle abstracts that outcome: `true` means the consume succeeded
(the head item is invoked), `false` means it failed because a concurrent
consumer drained the bucket between the wait and the consume, in which case
the loop does `queue.appendleft(item)` — the popped head goes back to the
front, so the queue is unchanged — and retries after a short sleep.  The
oracle's length bounds the number of iterations modelled (the real loop
runs until the queue is empty). -/
def process_channel_queue_trace : List Nat → List Bool → List Nat
  | [], _ => []
  | _ :: _, [] => []
  | item :: rest, ok :: os =>
      if ok then item :: process_channel_queue_trace rest os
      else process_channel_queue_trace (item :: rest) os

/-- The observable event trace of one `execute_with_audit_log_limit` call. -/
def audit_trace (rl : RateLimiter) (now : ℚ) : List AuditEvent :=
  (rl.execute_with_audit_log_limit now).2

/-- Concrete stale-maxlen scenario: fresh limiter, `configure(max_queue_size=2)`,
enqueue futures 1 and 2 to channel 7 (the deque is created with `maxlen = 2`
and fills up), then `configure(max_queue_size=3)`.  The next enqueue passes
the live overflow check (2 < 3) but the frozen `maxlen = 2` deque silently
drops item 1. -/
def c10_state : RateLimiter :=
  (((((RateLimiter.init 0).configure none none none (some 2) none).enqueue_send
      7 1).1.enqueue_send 7 2).1.configure none none none (some 3) none)

/-- Concrete overflow scenario: fresh limiter with `max_queue_size = 2`,
channel 7's queue created and filled with futures 1 and 2. -/
def c3_full_state : RateLimiter :=
  ((((RateLimiter.init 0).configure none none none (some 2) none).enqueue_send
      7 1).1.enqueue_send 7 2).1

/-- Fresh limiter with `max_queue_size = 2` and an empty queue for channel 7. -/
def c3_fresh_state : RateLimiter :=
  (((RateLimiter.init 0).configure none none none
      (some 2) none).get_channel_queue 7).1

/-- Fresh limiter with `max_queue_size = 3` and an empty queue for channel 7. -/
def c4_fresh_state : RateLimiter :=
  (((RateLimiter.init 0).configure none none none
      (some 3) none).get_channel_queue 7).1

/-- Fresh limiter with rate limiting disabled. -/
def c9_disabled_state : RateLimiter :=
  (RateLimiter.init 0).configure none none none none (some false)

/-! ## Basic lemmas about the embedding -/

theorem getEntry_setEntry_same {α : Type} (l : List (Nat × α)) (k : Nat) (v : α) :
    getEntry (setEntry l k v) k = some v := by
  induction l with
  | nil => simp [setEntry, getEntry]
  | cons hd tl ih =>
      obtain ⟨k2, v2⟩ := hd
      by_cases h : k2 = k <;> simp [setEntry, getEntry, h, ih]

theorem getEntry_setEntry_ne {α : Type} (l : List (Nat × α)) (k j : Nat) (v : α)
    (h : k ≠ j) : getEntry (setEntry l k v) j = getEntry l j := by
  induction l with
  | nil => simp [setEntry, getEntry, h]
  | cons hd tl ih =>
      obtain ⟨k2, v2⟩ := hd
      by_cases h2 : k2 = k
      · subst h2; simp [setEntry, getEntry, h]
      · simp [setEntry, getEntry, h2, ih]

theorem refill_fields (b : RateLimitBucket) (now : ℚ) :
    (b.refill now).capacity = b.capacity ∧
    (b.refill now).refill_rate = b.refill_rate ∧
    (b.refill now).last_refill = now := ⟨rfl, rfl, rfl⟩

theorem refill_tokens_eq (b : RateLimitBucket) (now : ℚ) :
    (b.refill now).tokens
      = min b.capacity (b.tokens + (now - b.last_refill) * b.refill_rate) := rfl

theorem refill_tokens_le_capacity (b : RateLimitBucket) (now : ℚ) :
    (b.refill now).tokens ≤ b.capacity := min_le_left _ _

theorem consume_true_iff (b : RateLimitBucket) (now n : ℚ) :
    (b.consume now n).1 = true ↔ n ≤ (b.refill now).tokens := by
  simp only [RateLimitBucket.consume]
  split <;> simp_all

theorem wait_time_snd (b : RateLimitBucket) (now n : ℚ) :
    (b.wait_time now n).2 = b.refill now := by
  simp only [RateLimitBucket.wait_time]
  split <;> rfl

theorem wait_time_fst_of_le (b : RateLimitBucket) (now n : ℚ)
    (h : n ≤ (b.refill now).tokens) : (b.wait_time now n).1 = 0 := by
  simp only [RateLimitBucket.wait_time]
  simp [h]

theorem wait_time_fst_of_lt (b : RateLimitBucket) (now n : ℚ)
    (h : (b.refill now).tokens < n) :
    (b.wait_time now n).1 = (n - (b.refill now).tokens) / b.refill_rate := by
  simp only [RateLimitBucket.wait_time]
  simp [not_le.mpr h]
  rfl

theorem push_of_room (q : ChannelQueue) (x : Nat) (h : q.items.length < q.maxlen) :
    q.push x = { q with items := q.items ++ [x] } := by
  simp [ChannelQueue.push, h]

theorem push_of_full (q : ChannelQueue) (x : Nat) (h : q.items.length = q.maxlen) :
    q.push x = { q with items := (q.items ++ [x]).drop 1 } := by
  have h2 : ¬ q.items.length < q.maxlen := by omega
  have h3 : q.items.length + 1 - q.maxlen = 1 := by omega
  simp [ChannelQueue.push, h2, h3]

/-- `enqueue_send` when the live `max_queue_size` is already reached:
rejected, counter bumped, future resolved with the overflow error, queue
map untouched. -/
theorem enqueue_send_full (rl : RateLimiter) (k fid : Nat) (q : ChannelQueue)
    (he : rl.enabled = true)
    (hq : getEntry rl.channel_queues k = some q)
    (hfull : rl.max_queue_size ≤ q.items.length) :
    (rl.enqueue_send k fid).2 = EnqueueResult.overflowed
    ∧ (rl.enqueue_send k fid).1.channel_queues = rl.channel_queues
    ∧ (rl.enqueue_send k fid).1.queue_overflows = rl.queue_overflows + 1
    ∧ (rl.enqueue_send k fid).1.messages_queued = rl.messages_queued
    ∧ (rl.enqueue_send k fid).1.messages_sent = rl.messages_sent
    ∧ (rl.enqueue_send k fid).1.max_queue_size = rl.max_queue_size
    ∧ (rl.enqueue_send k fid).1.enabled = rl.enabled
    ∧ (rl.enqueue_send k fid).1.futures
        = setEntry rl.futures fid FutureState.overflowError := by
  simp only [RateLimiter.enqueue_send, RateLimiter.get_channel_queue, he, hq]
  simp [hfull]

/-- `enqueue_send` when the live `max_queue_size` is not yet reached:
admitted, appended via the deque's `push`, queued counter bumped, future
left pending. -/
theorem enqueue_send_room (rl : RateLimiter) (k fid : Nat) (q : ChannelQueue)
    (he : rl.enabled = true)
    (hq : getEntry rl.channel_queues k = some q)
    (hroom : q.items.length < rl.max_queue_size) :
    (rl.enqueue_send k fid).2 = EnqueueResult.queued
    ∧ (rl.enqueue_send k fid).1.channel_queues
        = setEntry rl.channel_queues k (q.push fid)
    ∧ (rl.enqueue_send k fid).1.queue_overflows = rl.queue_overflows
    ∧ (rl.enqueue_send k fid).1.messages_queued = rl.messages_queued + 1
    ∧ (rl.enqueue_send k fid).1.messages_sent = rl.messages_sent
    ∧ (rl.enqueue_send k fid).1.max_queue_size = rl.max_queue_size
    ∧ (rl.enqueue_send k fid).1.enabled = rl.enabled
    ∧ (rl.enqueue_send k fid).1.futures
        = setEntry rl.futures fid FutureState.pending := by
  have hno : ¬ rl.max_queue_size ≤ q.items.length := not_le.mpr hroom
  simp only [RateLimiter.enqueue_send, RateLimiter.get_channel_queue, he, hq]
  simp only [Bool.true_eq_false, if_false, hno, if_true]
  split <;> simp

/-- Exact effect of `enqueue_all` on one channel: with the queue for `k`
holding `items` in a deque whose `maxlen` equals the live `max_queue_size`
`M`, the first `M - items.length` calls are admitted in order and every
later call overflows. -/
theorem enqueue_all_spec (k M : Nat) :
    ∀ (fids : List Nat) (rl : RateLimiter) (items : List Nat),
      rl.enabled = true →
      rl.max_queue_size = M →
      getEntry rl.channel_queues k = some { items := items, maxlen := M } →
      items.length ≤ M →
      ((rl.enqueue_all k fids).2
          = List.replicate (min fids.length (M - items.length))
              EnqueueResult.queued
            ++ List.replicate (fids.length - (M - items.length))
              EnqueueResult.overflowed)
      ∧ getEntry (rl.enqueue_all k fids).1.channel_queues k
          = some { items := items ++ fids.take (M - items.length), maxlen := M } := by
  intro fids
  induction fids with
  | nil =>
      intro rl items he hM hq hlen
      simp [RateLimiter.enqueue_all, hq]
  | cons f rest ih =>
      intro rl items he hM hq hlen
      by_cases hfull : items.length = M
      · have hov := enqueue_send_full rl k f ⟨items, M⟩ he hq (by simp [hM, hfull])
        have hq2 : getEntry (rl.enqueue_send k f).1.channel_queues k
            = some { items := items, maxlen := M } := by
          rw [hov.2.1, hq]
        have ihr := ih (rl.enqueue_send k f).1 items
          (by rw [hov.2.2.2.2.2.2.1, he]) (by rw [hov.2.2.2.2.2.1, hM]) hq2 hlen
        have hz : M - items.length = 0 := by omega
        simp only [RateLimiter.enqueue_all]
        refine ⟨?_, ?_⟩
        · rw [hov.1, ihr.1, hz]
          simp [List.replicate_succ]
        · rw [ihr.2, hz]
          simp
      · have hroom : items.length < M := lt_of_le_of_ne hlen hfull
        have hst := enqueue_send_room rl k f ⟨items, M⟩ he hq (by rw [hM]; exact hroom)
        have hpush : ChannelQueue.push ⟨items, M⟩ f
            = { items := items ++ [f], maxlen := M } := by
          rw [push_of_room ⟨items, M⟩ f hroom]
        have hq2 : getEntry (rl.enqueue_send k f).1.channel_queues k
            = some { items := items ++ [f], maxlen := M } := by
          rw [hst.2.1, hpush, getEntry_setEntry_same]
        have ihr := ih (rl.enqueue_send k f).1 (items ++ [f])
          (by rw [hst.2.2.2.2.2.2.1, he]) (by rw [hst.2.2.2.2.2.1, hM]) hq2
          (by simp; omega)
        have hmj : M - items.length = (M - (items.length + 1)) + 1 := by omega
        simp only [RateLimiter.enqueue_all]
        refine ⟨?_, ?_⟩
        · rw [hst.1, ihr.1]
          have hlen2 : (items ++ [f]).length = items.length + 1 := by simp
          rw [hlen2, hmj]
          have hmin : min (rest.length + 1) ((M - (items.length + 1)) + 1)
              = min rest.length (M - (items.length + 1)) + 1 := by omega
          have hsub : (rest.length + 1) - ((M - (items.length + 1)) + 1)
              = rest.length - (M - (items.length + 1)) := by omega
          simp only [List.length_cons, hmin, hsub, List.replicate_succ]
          rfl
        · rw [ihr.2]
          have hlen2 : (items ++ [f]).length = items.length + 1 := by simp
          rw [hlen2, hmj]
          simp [List.take_succ_cons]

/-- The channel-42 bucket after `handle_rate_limit_response(42, r)` on a
fresh limiter: created with `tokens = capacity = 5`, `refill_rate = 5/5 = 1`,
then reset to `tokens = 0`, `last_refill = t + r`. -/
theorem backoff_bucket (t r : ℚ) :
    (((RateLimiter.init t).handle_rate_limit_response (some 42) r t).channel_bucket 42)
      = { tokens := 0, capacity := 5, refill_rate := 1, last_refill := t + r } := by
  simp [RateLimiter.init, RateLimiter.handle_rate_limit_response,
    RateLimiter.get_channel_bucket, RateLimiter.channel_bucket, getEntry, setEntry]

/-! ## Claims -/

/-- Claim C1, counterexample: the invariant `0 ≤ tokens ≤ capacity` and the
monotonicity of `last_refill` both FAIL at an observation made after
`handle_rate_limit_response` has pushed `last_refill` into the future.
Concretely: fresh limiter at time 0, `handle_rate_limit_response(42, 2.0)`,
then `refill` of channel 42's bucket at time 0 (before the deadline 2):
`elapsed = 0 - 2 = -2`, so `tokens = min(5, 0 + (-2)*1) = -2 < 0`, and
`last_refill` drops from 2 back to 0. -/
theorem C1_counterexample :
    ((((RateLimiter.init 0).handle_rate_limit_response (some 42) 2 0).channel_bucket
        42).refill 0).tokens = -2
    ∧ ((((RateLimiter.init 0).handle_rate_limit_response (some 42) 2 0).channel_bucket
        42).refill 0).tokens < 0
    ∧ ((((RateLimiter.init 0).handle_rate_limit_response (some 42) 2 0).channel_bucket
        42).refill 0).last_refill
      < (((RateLimiter.init 0).handle_rate_limit_response (some 42) 2 0).channel_bucket
        42).last_refill := by
  have hb := backoff_bucket 0 2
  rw [hb]
  have ht : ((RateLimitBucket.mk 0 5 1 (0 + 2)).refill 0).tokens = -2 := by
    rw [refill_tokens_eq]
    norm_num
  refine ⟨ht, by rw [ht]; norm_num, ?_⟩
  show (0:ℚ) < 0 + 2
  norm_num

/-- Claim C1 (amended): for every bucket, `0 ≤ tokens ≤ capacity` is
preserved by `refill`, `consume` and `wait_time`, and `refill` leaves
`last_refill` non-decreasing, PROVIDED the observation time is not earlier
than `last_refill` (`last_refill ≤ now`).  The proviso excludes exactly the
post-`handle_rate_limit_response` window, where `last_refill` has been set
to `now + retry_after` and an access before that deadline drives `tokens`
negative and decreases `last_refill` (see the counterexample). -/
theorem C1_bucket_invariant (b : RateLimitBucket) (now n : ℚ)
    (h0 : 0 ≤ b.tokens) (h1 : b.tokens ≤ b.capacity)
    (h2 : b.last_refill ≤ now) (h3 : 0 ≤ b.refill_rate) (h4 : 0 ≤ n) :
    (0 ≤ (b.refill now).tokens ∧ (b.refill now).tokens ≤ (b.refill now).capacity
      ∧ b.last_refill ≤ (b.refill now).last_refill)
    ∧ (0 ≤ ((b.consume now n).2).tokens ∧ ((b.consume now n).2).tokens ≤ b.capacity)
    ∧ (0 ≤ ((b.wait_time now n).2).tokens
        ∧ ((b.wait_time now n).2).tokens ≤ b.capacity) := by
  have hcap : (0:ℚ) ≤ b.capacity := h0.trans h1
  have hel : (0:ℚ) ≤ (now - b.last_refill) * b.refill_rate :=
    mul_nonneg (by linarith) h3
  have hrt : 0 ≤ (b.refill now).tokens := by
    rw [refill_tokens_eq]
    exact le_min hcap (by linarith)
  refine ⟨⟨hrt, min_le_left _ _, h2⟩, ?_, ?_⟩
  · have hle := refill_tokens_le_capacity b now
    by_cases hn : n ≤ (b.refill now).tokens
    · have hc : (b.consume now n).2
          = { b.refill now with tokens := (b.refill now).tokens - n } := by
        simp only [RateLimitBucket.consume]
        rw [if_pos hn]
      rw [hc]
      refine ⟨?_, ?_⟩
      · show 0 ≤ (b.refill now).tokens - n
        linarith
      · show (b.refill now).tokens - n ≤ b.capacity
        linarith
    · have hc : (b.consume now n).2 = b.refill now := by
        simp only [RateLimitBucket.consume]
        rw [if_neg hn]
      rw [hc]
      exact ⟨hrt, hle⟩
  · rw [wait_time_snd]
    exact ⟨hrt, refill_tokens_le_capacity b now⟩

/-- Claim C1, witness for the amended theorem: bucket
`⟨tokens 3, capacity 5, rate 1, last_refill 0⟩` observed at time 2 with
`n = 1` satisfies the hypotheses, and all the invariants hold there. -/
theorem C1_witness :
    ((0:ℚ) ≤ 3 ∧ (3:ℚ) ≤ 5 ∧ (0:ℚ) ≤ 2 ∧ (0:ℚ) ≤ 1)
    ∧ ((0 ≤ ((RateLimitBucket.mk 3 5 1 0).refill 2).tokens
        ∧ ((RateLimitBucket.mk 3 5 1 0).refill 2).tokens
            ≤ ((RateLimitBucket.mk 3 5 1 0).refill 2).capacity
        ∧ (RateLimitBucket.mk 3 5 1 0).last_refill
            ≤ ((RateLimitBucket.mk 3 5 1 0).refill 2).last_refill)
      ∧ (0 ≤ (((RateLimitBucket.mk 3 5 1 0).consume 2 1).2).tokens
        ∧ (((RateLimitBucket.mk 3 5 1 0).consume 2 1).2).tokens
            ≤ (RateLimitBucket.mk 3 5 1 0).capacity)
      ∧ (0 ≤ (((RateLimitBucket.mk 3 5 1 0).wait_time 2 1).2).tokens
        ∧ (((RateLimitBucket.mk 3 5 1 0).wait_time 2 1).2).tokens
            ≤ (RateLimitBucket.mk 3 5 1 0).capacity)) :=
  ⟨by norm_num,
    C1_bucket_invariant (RateLimitBucket.mk 3 5 1 0) 2 1 (by norm_num) (by norm_num)
      (by norm_num) (by norm_num) (by norm_num)⟩

/-- Claim C2, counterexample: on a fresh limiter at time 0,
`handle_rate_limit_response(42, 2.0)` followed by `wait_time(1)` on channel
42's bucket at the same instant returns `3.0` — not approximately `2.0`
(it is off by a full second) — because the refill first drives `tokens`
to `-2` and the wait is then `(1 - (-2)) / 1 = 3`. -/
theorem C2_counterexample :
    ((((RateLimiter.init 0).handle_rate_limit_response (some 42) 2 0).channel_bucket
        42).wait_time 0 1).1 = 3
    ∧ ¬ (|((((RateLimiter.init 0).handle_rate_limit_response (some 42) 2
        0).channel_bucket 42).wait_time 0 1).1 - 2| ≤ 1/2) := by
  have hb := backoff_bucket 0 2
  rw [hb]
  have ht : ((RateLimitBucket.mk 0 5 1 (0 + 2)).refill 0).tokens = -2 := by
    rw [refill_tokens_eq]
    norm_num
  have hw : ((RateLimitBucket.mk 0 5 1 (0 + 2)).wait_time 0 1).1 = 3 := by
    rw [wait_time_fst_of_lt _ _ _ (by rw [ht]; norm_num), ht]
    norm_num
  rw [hw]
  norm_num

/-- Claim C2 (amended): after `handle_rate_limit_response(42, r)` with
`r ≥ 0` on a fresh limiter (default per-channel bucket: 5 tokens per
5-second window, refill rate 1 token/sec), `wait_time(1)` on channel 42's
bucket evaluated at the same instant returns `r + 1` — for `r = 2.0` that
is `3.0`, not `0` (and not `2.0`): the backoff pushes `last_refill` to
`now + r`, so the refill computes `tokens = -r` and the wait is
`(1 - (-r)) / 1`. -/
theorem C2_backoff_wait (t r : ℚ) (hr : 0 ≤ r) :
    ((((RateLimiter.init t).handle_rate_limit_response (some 42) r t).channel_bucket
        42).wait_time t 1).1 = r + 1 := by
  rw [backoff_bucket]
  have href : ((RateLimitBucket.mk 0 5 1 (t + r)).refill t).tokens = -r := by
    rw [refill_tokens_eq]
    simp only
    rw [min_eq_right (by linarith)]
    ring
  rw [wait_time_fst_of_lt _ _ _ (by rw [href]; linarith)]
  rw [href]
  simp only
  ring

/-- Claim C2, witness for the amended theorem: at `t = 0`, `r = 2` the wait
is exactly `3`. -/
theorem C2_witness :
    (0:ℚ) ≤ 2
    ∧ ((((RateLimiter.init 0).handle_rate_limit_response (some 42) 2 0).channel_bucket
        42).wait_time 0 1).1 = 2 + 1 :=
  ⟨by norm_num, C2_backoff_wait 0 2 (by norm_num)⟩

/-- Claim C5: if a caller sleeps exactly `wait_time(n)` (which itself
refills the bucket) and then calls `consume(n)` with no interference, the
consume succeeds — provided `n ≤ capacity` and the refill rate is positive;
and for a bucket with `capacity = 5`, `refill_rate = 1`, `tokens = 0`,
`wait_time(1)` is exactly `1.0` and the subsequent `consume(1)` succeeds. -/
theorem C5_wait_then_consume (b : RateLimitBucket) (now n : ℚ)
    (hrate : 0 < b.refill_rate) (hcap : n ≤ b.capacity) :
    (((b.wait_time now n).2.consume (now + (b.wait_time now n).1) n).1 = true)
    ∧ (((RateLimitBucket.mk 0 5 1 now).wait_time now 1).1 = 1)
    ∧ ((((RateLimitBucket.mk 0 5 1 now).wait_time now 1).2.consume
        (now + ((RateLimitBucket.mk 0 5 1 now).wait_time now 1).1) 1).1 = true) := by
  have key : ∀ c : RateLimitBucket, ∀ t m : ℚ, 0 < c.refill_rate → m ≤ c.capacity →
      ((c.wait_time t m).2.consume (t + (c.wait_time t m).1) m).1 = true := by
    intro c t m hr hm
    rw [wait_time_snd, consume_true_iff]
    have hcapr : ((c.refill t).refill (t + (c.wait_time t m).1)).tokens
        = min c.capacity ((c.refill t).tokens + (c.wait_time t m).1 * c.refill_rate) := by
      rw [refill_tokens_eq]
      have h1 : (c.refill t).capacity = c.capacity := rfl
      have h2 : (c.refill t).refill_rate = c.refill_rate := rfl
      have h3 : (c.refill t).last_refill = t := rfl
      rw [h1, h2, h3]
      ring_nf
    by_cases hn : m ≤ (c.refill t).tokens
    · rw [wait_time_fst_of_le _ _ _ hn] at hcapr ⊢
      rw [hcapr]
      have := refill_tokens_le_capacity c t
      rw [min_eq_right (by linarith)]
      linarith
    · push_neg at hn
      rw [wait_time_fst_of_lt _ _ _ hn] at hcapr ⊢
      rw [hcapr, div_mul_cancel₀ _ (ne_of_gt hr)]
      rw [min_eq_right (by linarith)]
      simp
  refine ⟨key b now n hrate hcap, ?_, ?_⟩
  · have h0 : ((RateLimitBucket.mk 0 5 1 now).refill now).tokens = 0 := by
      rw [refill_tokens_eq]
      simp
    rw [wait_time_fst_of_lt _ _ _ (by rw [h0]; norm_num), h0]
    norm_num
  · exact key (RateLimitBucket.mk 0 5 1 now) now 1 (by norm_num) (by norm_num)

/-- Claim C5, witness: the concrete bucket `⟨0, 5, 1, 0⟩` at time 0 with
`n = 1`: the wait is `1` and the consume after sleeping succeeds. -/
theorem C5_witness :
    ((0:ℚ) < 1 ∧ (1:ℚ) ≤ 5)
    ∧ (((RateLimitBucket.mk 0 5 1 0).wait_time 0 1).2.consume
        (0 + ((RateLimitBucket.mk 0 5 1 0).wait_time 0 1).1) 1).1 = true
    ∧ ((RateLimitBucket.mk 0 5 1 0).wait_time 0 1).1 = 1 :=
  ⟨by norm_num,
    (C5_wait_then_consume (RateLimitBucket.mk 0 5 1 0) 0 1 (by norm_num)
      (by norm_num)).1,
    ((C5_wait_then_consume (RateLimitBucket.mk 0 5 1 0) 0 1 (by norm_num)
      (by norm_num)).2).1⟩

/-- Claim C6: evaluated at the same instant on the same state, `consume(n)`
succeeds iff `wait_time(n)` returns `0` (refill rate positive, as in every
bucket the limiter creates). -/
theorem C6_consume_iff_wait_zero (b : RateLimitBucket) (now n : ℚ)
    (hrate : 0 < b.refill_rate) :
    ((b.consume now n).1 = true ↔ (b.wait_time now n).1 = 0) := by
  by_cases hn : n ≤ (b.refill now).tokens
  · rw [consume_true_iff, wait_time_fst_of_le _ _ _ hn]
    simp [hn]
  · push_neg at hn
    rw [consume_true_iff, wait_time_fst_of_lt _ _ _ hn]
    have hpos : 0 < (n - (b.refill now).tokens) / b.refill_rate :=
      div_pos (by linarith) hrate
    constructor
    · intro h
      linarith
    · intro h
      rw [h] at hpos
      exact absurd hpos (lt_irrefl 0)

/-- Claim C6, witness: bucket `⟨0, 5, 1, 0⟩` at time 0, `n = 1`: consume
fails and the wait time is the nonzero `1`. -/
theorem C6_witness :
    (0:ℚ) < 1
    ∧ (((RateLimitBucket.mk 0 5 1 0).consume 0 1).1 = true
        ↔ ((RateLimitBucket.mk 0 5 1 0).wait_time 0 1).1 = 0) :=
  ⟨by norm_num, C6_consume_iff_wait_zero (RateLimitBucket.mk 0 5 1 0) 0 1 (by norm_num)⟩

/-- Claim C8: `consume(n)` first refills; if the refilled tokens reach `n`
it subtracts exactly `n` and returns success, otherwise it returns failure
and the bucket is left exactly as the refill left it. -/
theorem C8_consume_spec (b : RateLimitBucket) (now n : ℚ) :
    ((b.refill now).tokens < n → b.consume now n = (false, b.refill now))
    ∧ (n ≤ (b.refill now).tokens →
        b.consume now n
          = (true, { b.refill now with tokens := (b.refill now).tokens - n })) := by
  constructor
  · intro h
    simp only [RateLimitBucket.consume]
    rw [if_neg (not_le.mpr h)]
  · intro h
    simp only [RateLimitBucket.consume]
    rw [if_pos h]

/-- Claim C8, witness: bucket `⟨5, 5, 1, 0⟩` at time 0: `consume 1` succeeds
leaving 4 tokens; bucket `⟨0, 5, 1, 0⟩` at time 0: `consume 1` fails leaving
the refilled state untouched. -/
theorem C8_witness :
    ((1:ℚ) ≤ ((RateLimitBucket.mk 5 5 1 0).refill 0).tokens
      ∧ (RateLimitBucket.mk 5 5 1 0).consume 0 1
          = (true, { (RateLimitBucket.mk 5 5 1 0).refill 0 with
              tokens := ((RateLimitBucket.mk 5 5 1 0).refill 0).tokens - 1 }))
    ∧ (((RateLimitBucket.mk 0 5 1 0).refill 0).tokens < 1
      ∧ (RateLimitBucket.mk 0 5 1 0).consume 0 1
          = (false, (RateLimitBucket.mk 0 5 1 0).refill 0)) :=
  ⟨⟨by rw [refill_tokens_eq]; norm_num,
      (C8_consume_spec (RateLimitBucket.mk 5 5 1 0) 0 1).2
        (by rw [refill_tokens_eq]; norm_num)⟩,
    ⟨by rw [refill_tokens_eq]; norm_num,
      (C8_consume_spec (RateLimitBucket.mk 0 5 1 0) 0 1).1
        (by rw [refill_tokens_eq]; norm_num)⟩⟩

/-- Claim C3: with the live `max_queue_size` already reached by the
resource's queue, `enqueue_send` rejects the call: the returned future is
resolved with the overflow failure (returned, never raised), the
`queue_overflows` counter is incremented by one, and the queue map is
unchanged; and enqueueing `M + 1` calls into an empty queue with no
draining yields exactly `M` admitted calls followed by exactly one
overflow-resolved call. -/
theorem C3_queue_overflow :
    (∀ (rl : RateLimiter) (k fid : Nat) (q : ChannelQueue),
        rl.enabled = true →
        getEntry rl.channel_queues k = some q →
        rl.max_queue_size ≤ q.items.length →
        (rl.enqueue_send k fid).2 = EnqueueResult.overflowed
        ∧ getEntry (rl.enqueue_send k fid).1.futures fid
            = some FutureState.overflowError
        ∧ (rl.enqueue_send k fid).1.queue_overflows = rl.queue_overflows + 1
        ∧ (rl.enqueue_send k fid).1.channel_queues = rl.channel_queues)
    ∧ (∀ (rl : RateLimiter) (k M : Nat) (fids : List Nat),
        rl.enabled = true →
        rl.max_queue_size = M →
        getEntry rl.channel_queues k = some { items := [], maxlen := M } →
        fids.length = M + 1 →
        (rl.enqueue_all k fids).2
          = List.replicate M EnqueueResult.queued ++ [EnqueueResult.overflowed]) := by
  constructor
  · intro rl k fid q he hq hfull
    have h := enqueue_send_full rl k fid q he hq hfull
    exact ⟨h.1, by rw [h.2.2.2.2.2.2.2, getEntry_setEntry_same], h.2.2.1, h.2.1⟩
  · intro rl k M fids he hM hq hlen
    have h := (enqueue_all_spec k M fids rl [] he hM hq (by simp)).1
    rw [h]
    simp only [List.length_nil, Nat.sub_zero]
    rw [show min fids.length M = M by omega, show fids.length - M = 1 by omega]
    rfl

/-- Claim C3, witness: with `max_queue_size = 2` and channel 7's queue
holding `[1, 2]`, enqueueing future 3 overflows, resolves it with the
overflow error, bumps the counter, and leaves the queue map unchanged;
and three enqueues into the empty max-2 queue give
`[queued, queued, overflowed]`. -/
theorem C3_witness :
    (c3_full_state.enabled = true
      ∧ getEntry c3_full_state.channel_queues 7
          = some { items := [1, 2], maxlen := 2 }
      ∧ c3_full_state.max_queue_size ≤ 2
      ∧ (c3_full_state.enqueue_send 7 3).2 = EnqueueResult.overflowed
      ∧ getEntry (c3_full_state.enqueue_send 7 3).1.futures 3
          = some FutureState.overflowError
      ∧ (c3_full_state.enqueue_send 7 3).1.queue_overflows
          = c3_full_state.queue_overflows + 1
      ∧ (c3_full_state.enqueue_send 7 3).1.channel_queues
          = c3_full_state.channel_queues)
    ∧ (c3_fresh_state.enabled = true
      ∧ (c3_fresh_state.enqueue_all 7 [1, 2, 3]).2
          = List.replicate 2 EnqueueResult.queued ++ [EnqueueResult.overflowed]) := by
  have h1 := C3_queue_overflow.1 c3_full_state 7 3 { items := [1, 2], maxlen := 2 }
    (by decide) (by decide) (by decide)
  have h2 := C3_queue_overflow.2 c3_fresh_state 7 2 [1, 2, 3]
    (by decide) (by decide) (by decide) (by decide)
  exact ⟨⟨by decide, by decide, by decide, h1.1, h1.2.1, h1.2.2.1, h1.2.2.2⟩,
    ⟨by decide, h2⟩⟩

/-- Claim C4: the drain loop dispatches in strict FIFO order.  For any
queue contents and any sequence of channel-bucket consume outcomes, the
invocation trace is a prefix of the queue (a failed consume re-queues the
popped head at the front, preserving its position); with every consume
succeeding the trace is exactly the queue; and for `N ≤ maxQueueSize`
calls enqueued into an empty queue, the dispatched order is exactly the
enqueue order. -/
theorem C4_fifo_order :
    (∀ (queue : List Nat) (oracle : List Bool),
        ∃ r, process_channel_queue_trace queue oracle ++ r = queue)
    ∧ (∀ queue : List Nat,
        process_channel_queue_trace queue (List.replicate queue.length true) = queue)
    ∧ (∀ (rl : RateLimiter) (k M : Nat) (fids : List Nat),
        rl.enabled = true →
        rl.max_queue_size = M →
        getEntry rl.channel_queues k = some { items := [], maxlen := M } →
        fids.length ≤ M →
        process_channel_queue_trace
          ((rl.enqueue_all k fids).1.channel_queue_items k)
          (List.replicate fids.length true) = fids) := by
  have hpre : ∀ (oracle : List Bool) (queue : List Nat),
      ∃ r, process_channel_queue_trace queue oracle ++ r = queue := by
    intro oracle
    induction oracle with
    | nil =>
        intro queue
        cases queue with
        | nil => exact ⟨[], rfl⟩
        | cons x rest => exact ⟨x :: rest, rfl⟩
    | cons b os ih =>
        intro queue
        cases queue with
        | nil => exact ⟨[], rfl⟩
        | cons x rest =>
            cases b with
            | true =>
                obtain ⟨r, hr⟩ := ih rest
                exact ⟨r, by simp [process_channel_queue_trace, hr]⟩
            | false =>
                obtain ⟨r, hr⟩ := ih (x :: rest)
                exact ⟨r, by simpa [process_channel_queue_trace] using hr⟩
  have hfull : ∀ queue : List Nat,
      process_channel_queue_trace queue (List.replicate queue.length true)
        = queue := by
    intro queue
    induction queue with
    | nil => rfl
    | cons x rest ih =>
        simp [process_channel_queue_trace, List.replicate_succ, ih]
  refine ⟨fun q o => hpre o q, hfull, ?_⟩
  intro rl k M fids he hM hq hlen
  have h := (enqueue_all_spec k M fids rl [] he hM hq (by simp)).2
  simp only [RateLimiter.channel_queue_items, h, Option.getD_some, List.nil_append,
    List.length_nil, Nat.sub_zero]
  rw [List.take_of_length_le hlen]
  exact hfull fids

/-- Claim C4, witness: enqueueing futures 4, 5, 6 into the empty max-3
queue of channel 7 and draining with every consume succeeding invokes them
in exactly the order 4, 5, 6. -/
theorem C4_witness :
    (c4_fresh_state.enabled = true
      ∧ getEntry c4_fresh_state.channel_queues 7
          = some { items := [], maxlen := 3 }
      ∧ [4, 5, 6].length ≤ c4_fresh_state.max_queue_size)
    ∧ process_channel_queue_trace
        ((c4_fresh_state.enqueue_all 7 [4, 5, 6]).1.channel_queue_items 7)
        (List.replicate [4, 5, 6].length true) = [4, 5, 6] := by
  have h := C4_fifo_order.2.2 c4_fresh_state 7 3 [4, 5, 6]
    (by decide) (by decide) (by decide) (by decide)
  exact ⟨⟨by decide, by decide, by decide⟩, h⟩

/-- Claim C7: on the enabled audit path, the trace contains exactly one
`consume` attempt and exactly one invocation of the target operation, the
invocation is the final event (its result goes straight back to the
caller), and when the single consume attempt fails the trace shows a second
wait with no further consume attempt before the invocation. -/
theorem C7_audit_single_consume (rl : RateLimiter) (now : ℚ)
    (he : rl.enabled = true) :
    ((audit_trace rl now).countP AuditEvent.isConsume = 1)
    ∧ ((audit_trace rl now).countP AuditEvent.isInvoke = 1)
    ∧ ((audit_trace rl now).getLast? = some AuditEvent.invokeOp)
    ∧ (((rl.audit_log_bucket.wait_time now 1).2.consume
          (now + (rl.audit_log_bucket.wait_time now 1).1) 1).1 = false →
        ∃ w1 w2, audit_trace rl now
          = [AuditEvent.wait w1, AuditEvent.consumeAttempt false,
             AuditEvent.wait w2, AuditEvent.invokeOp]) := by
  by_cases hc : ((rl.audit_log_bucket.wait_time now 1).2.consume
      (now + (rl.audit_log_bucket.wait_time now 1).1) 1).1 = true
  · simp only [audit_trace, RateLimiter.execute_with_audit_log_limit, he, hc]
    refine ⟨?_, ?_, ?_, ?_⟩
    · simp [List.countP_cons, AuditEvent.isConsume, AuditEvent.isInvoke]
    · simp [List.countP_cons, AuditEvent.isConsume, AuditEvent.isInvoke]
    · simp
    · intro hfalse
      exact absurd hfalse (by simp)
  · have hf : ((rl.audit_log_bucket.wait_time now 1).2.consume
        (now + (rl.audit_log_bucket.wait_time now 1).1) 1).1 = false :=
      Bool.not_eq_true _ ▸ (by simpa using hc)
    simp only [audit_trace, RateLimiter.execute_with_audit_log_limit, he, hf]
    refine ⟨?_, ?_, ?_, ?_⟩
    · simp [List.countP_cons, AuditEvent.isConsume, AuditEvent.isInvoke]
    · simp [List.countP_cons, AuditEvent.isConsume, AuditEvent.isInvoke]
    · simp
    · intro h2
      exact ⟨(rl.audit_log_bucket.wait_time now 1).1, _, rfl⟩

/-- Claim C7, witness: on the fresh limiter at time 0 the audit trace has
exactly one consume attempt and one invocation, with the invocation last. -/
theorem C7_witness :
    (RateLimiter.init 0).enabled = true
    ∧ (audit_trace (RateLimiter.init 0) 0).countP AuditEvent.isConsume = 1
    ∧ (audit_trace (RateLimiter.init 0) 0).countP AuditEvent.isInvoke = 1
    ∧ (audit_trace (RateLimiter.init 0) 0).getLast? = some AuditEvent.invokeOp := by
  have h := C7_audit_single_consume (RateLimiter.init 0) 0 (by decide)
  exact ⟨by decide, h.1, h.2.1, h.2.2.1⟩

/-- Claim C9: with the `enabled` flag false, `enqueue_send` runs the target
operation immediately, returning its own completion handle, with the whole
limiter state (queues, locks, buckets, counters) untouched; and
`execute_with_audit_log_limit` likewise invokes the operation directly with
no bucket interaction. -/
theorem C9_disabled_bypass (rl : RateLimiter) (k fid : Nat) (now : ℚ)
    (hd : rl.enabled = false) :
    rl.enqueue_send k fid = (rl, EnqueueResult.immediate)
    ∧ rl.execute_with_audit_log_limit now = (rl, [AuditEvent.invokeOp]) := by
  constructor
  · simp [RateLimiter.enqueue_send, hd]
  · simp [RateLimiter.execute_with_audit_log_limit, hd]

/-- Claim C9, witness: the concretely disabled limiter bypasses both paths
with its state unchanged. -/
theorem C9_witness :
    c9_disabled_state.enabled = false
    ∧ c9_disabled_state.enqueue_send 5 1
        = (c9_disabled_state, EnqueueResult.immediate)
    ∧ c9_disabled_state.execute_with_audit_log_limit 0
        = (c9_disabled_state, [AuditEvent.invokeOp]) := by
  have h := C9_disabled_bypass c9_disabled_state 5 1 0 (by decide)
  exact ⟨by decide, h.1, h.2⟩

/-- Claim C10: when the deque's frozen `maxlen` (`m`, the `max_queue_size`
at queue creation) is below the live `max_queue_size`, an enqueue to a
queue already holding `m` items passes the overflow check and the deque
append silently discards the oldest queued call: the call is admitted as
`queued`, the dropped head `i0` is gone from the queue, the overflow and
sent counters are unchanged (only `messages_queued` grows), and `i0`'s
future is still pending — nothing will ever resolve it. -/
theorem C10_stale_maxlen_drop (rl : RateLimiter) (k fid i0 : Nat)
    (rest : List Nat) (m : Nat)
    (he : rl.enabled = true)
    (hq : getEntry rl.channel_queues k = some { items := i0 :: rest, maxlen := m })
    (hlen : (i0 :: rest).length = m)
    (hmax : m < rl.max_queue_size)
    (hne : fid ≠ i0)
    (hni : i0 ∉ rest)
    (hfut : getEntry rl.futures i0 = some FutureState.pending) :
    (rl.enqueue_send k fid).2 = EnqueueResult.queued
    ∧ getEntry (rl.enqueue_send k fid).1.channel_queues k
        = some { items := rest ++ [fid], maxlen := m }
    ∧ (rl.enqueue_send k fid).1.queue_overflows = rl.queue_overflows
    ∧ (rl.enqueue_send k fid).1.messages_sent = rl.messages_sent
    ∧ getEntry (rl.enqueue_send k fid).1.futures i0 = some FutureState.pending
    ∧ i0 ∉ (rest ++ [fid]) := by
  have hroom : ({ items := i0 :: rest, maxlen := m } : ChannelQueue).items.length
      < rl.max_queue_size := by
    show (i0 :: rest).length < rl.max_queue_size
    omega
  have hst := enqueue_send_room rl k fid ⟨i0 :: rest, m⟩ he hq hroom
  have hpush : ChannelQueue.push ⟨i0 :: rest, m⟩ fid
      = { items := rest ++ [fid], maxlen := m } := by
    rw [push_of_full _ _ hlen]
    simp
  refine ⟨hst.1, ?_, hst.2.2.1, hst.2.2.2.2.1, ?_, ?_⟩
  · rw [hst.2.1, hpush, getEntry_setEntry_same]
  · rw [hst.2.2.2.2.2.2.2, getEntry_setEntry_ne _ _ _ _ hne, hfut]
  · simp only [List.mem_append, List.mem_singleton]
    rintro (h | h)
    · exact hni h
    · exact hne h.symm

/-- Claim C10, witness: in the concrete stale-maxlen scenario (queue
created under `max_queue_size = 2`, filled with futures 1 and 2, then
`max_queue_size` raised to 3), enqueueing future 3 is admitted, the queue
becomes `[2, 3]` — future 1's call silently dropped — the overflow counter
stays 0, and future 1 remains pending forever. -/
theorem C10_witness :
    (c10_state.enabled = true
      ∧ getEntry c10_state.channel_queues 7 = some { items := [1, 2], maxlen := 2 }
      ∧ c10_state.max_queue_size = 3
      ∧ getEntry c10_state.futures 1 = some FutureState.pending)
    ∧ (c10_state.enqueue_send 7 3).2 = EnqueueResult.queued
    ∧ getEntry (c10_state.enqueue_send 7 3).1.channel_queues 7
        = some { items := [2, 3], maxlen := 2 }
    ∧ (c10_state.enqueue_send 7 3).1.queue_overflows = c10_state.queue_overflows
    ∧ getEntry (c10_state.enqueue_send 7 3).1.futures 1
        = some FutureState.pending := by
  have h := C10_stale_maxlen_drop c10_state 7 3 1 [2] 2 (by decide) (by decide)
    (by decide) (by decide) (by decide) (by decide) (by decide)
  exact ⟨⟨by decide, by decide, by decide, by decide⟩, h.1, h.2.1, h.2.2.1,
    h.2.2.2.2.1⟩

end SentinelShop
